import Mathlib

/-!
Shallow embedding of the `mcp-sdk-rust` client core (files `src/client.rs`,
`src/types.rs`): JSON values as routed by `serde_json`, the JSON-RPC response
envelope, the pending-request registry (`HashMap<i64, oneshot::Sender<..>>`),
the background dispatch loop spawned in `McpClient::new`, the send phase of
`McpClient::request`, id allocation via `AtomicI64::fetch_add`, and
`McpClient::shutdown`.
-/

namespace Mcp

/-- Mirrors `serde_json::Number`: a JSON number is stored as a nonnegative
integer fitting `u64`, a negative integer fitting `i64`, or a float. The
float payload is irrelevant to correlation (only `as_i64 = None` matters),
so it carries no data. -/
inductive JNum where
  | posInt (n : Nat)
  | negInt (n : Int)
  | float
deriving DecidableEq, Repr

/-- Mirrors `serde_json::Number::as_i64`: `Some` exactly for integers
representable as a signed 64-bit integer. -/
def JNum.as_i64 : JNum → Option Int
  | .posInt n => if n ≤ 9223372036854775807 then some (n : Int) else none
  | .negInt n => some n
  | .float => none

/-- Mirrors `serde_json::Value`. -/
inductive Json where
  | null
  | bool (b : Bool)
  | num (n : JNum)
  | str (s : String)
  | arr (elems : List Json)
  | obj (fields : List (String × Json))
deriving Repr

/-- Mirrors `serde_json::Value::as_i64`: only numbers yield an integer. -/
def Json.as_i64 : Json → Option Int
  | .num n => n.as_i64
  | _ => none

/-- Mirrors `JsonRpcError` from `src/types.rs`. -/
structure JsonRpcError where
  code : Int
  message : String
  data : Option Json
deriving Repr

/-- Mirrors `JsonRpcResponse` from `src/types.rs`. -/
structure JsonRpcResponse where
  jsonrpc : String
  id : Option Json
  result : Option Json
  error : Option JsonRpcError
deriving Repr

/-- Typed rendering of the client's failure modes (the Rust code uses
`anyhow` errors built at the corresponding places in `src/client.rs`):
`transportError` for a failed send/receive, `recvFailed` for the
`rx.await` context error when the oneshot sender is dropped,
`rpcError` for a peer-reported JSON-RPC error object, and `combined`
for the merged error built in `shutdown` when both the shutdown request
and the transport close fail. -/
inductive ClientError where
  | transportError (msg : String)
  | recvFailed (msg : String)
  | rpcError (code : Int) (msg : String)
  | combined (first second : ClientError)
deriving DecidableEq, Repr

/-- The pending registry `HashMap<i64, oneshot::Sender<JsonRpcResponse>>`,
modelled as an association list from request id to a sender token. -/
abbrev PendingMap := List (Int × Nat)

/-- Lookup in the registry (semantics of `HashMap::get`). -/
def mapFind : PendingMap → Int → Option Nat
  | [], _ => none
  | (k1, v) :: t, k => if k1 = k then some v else mapFind t k

/-- Erase a key from the registry. -/
def mapErase : PendingMap → Int → PendingMap
  | [], _ => []
  | (k1, v) :: t, k => if k1 = k then mapErase t k else (k1, v) :: mapErase t k

/-- Mirrors `HashMap::remove`: returns the removed value, if any, and
leaves the map untouched when the key is absent. -/
def mapRemove (m : PendingMap) (k : Int) : PendingMap × Option Nat :=
  match mapFind m k with
  | none => (m, none)
  | some v => (mapErase m k, some v)

/-- Mirrors `HashMap::insert` (replacing any previous binding). -/
def mapInsert (m : PendingMap) (k : Int) (v : Nat) : PendingMap :=
  (k, v) :: mapErase m k

theorem mapFind_erase_self (m : PendingMap) (k : Int) :
    mapFind (mapErase m k) k = none := by
  induction m with
  | nil => rfl
  | cons a t ih =>
    obtain ⟨k1, v⟩ := a
    by_cases h : k1 = k
    · simp [mapErase, h, ih]
    · simp [mapErase, mapFind, h, ih]

theorem mapFind_insert_self (m : PendingMap) (k : Int) (v : Nat) :
    mapFind (mapInsert m k v) k = some v := by
  simp [mapInsert, mapFind]

/-- The id the dispatch loop would correlate a frame under: the code runs
`if let Some(id_val) = response.id` then `if let Some(id) = id_val.as_i64()`
(lines 34-35 of `src/client.rs`). -/
def matchedId (r : JsonRpcResponse) : Option Int :=
  match r.id with
  | none => none
  | some v => v.as_i64

/-- One iteration body of the dispatch loop on a successfully received
frame: correlate by `as_i64` id, `pending.remove(&id)`, and if a sender
was present, emit the resolution event `(sender, response)` (the
`sender.send(response)` of line 38). Returns the new registry and the
optional resolution. -/
def dispatchStep (p : PendingMap) (r : JsonRpcResponse) :
    PendingMap × Option (Nat × JsonRpcResponse) :=
  match matchedId r with
  | none => (p, none)
  | some i =>
    match mapRemove p i with
    | (p2, some tok) => (p2, some (tok, r))
    | (p2, none) => (p2, none)

/-- How the background task's loop ended on the modelled trace:
`recvError` when `transport.receive` returned `Err` (the loop `break`s,
line 45), `traceEnd` when the modelled trace is exhausted with the loop
still running. -/
inductive LoopExit where
  | recvError (msg : String)
  | traceEnd
deriving DecidableEq, Repr

/-- The dispatch loop of `McpClient::new` run over a trace of `receive`
outcomes: processes `Ok` frames with `dispatchStep`, breaks on the first
`Err` leaving the registry exactly as it is (the code only prints and
`break`s). Returns the final registry, the resolution events in order,
and how the loop ended. -/
def runLoop : List (Except String JsonRpcResponse) → PendingMap →
    PendingMap × List (Nat × JsonRpcResponse) × LoopExit
  | [], p => (p, [], .traceEnd)
  | .error e :: _, p => (p, [], .recvError e)
  | .ok f :: rest, p =>
    match dispatchStep p f with
    | (p2, some ev) =>
      match runLoop rest p2 with
      | (pf, evs, ex) => (pf, ev :: evs, ex)
    | (p2, none) => runLoop rest p2

/-- Wrapping of a mathematical integer into the signed 64-bit range,
the overflow behaviour of `AtomicI64::fetch_add`. -/
def i64wrap (n : Int) : Int :=
  (n + 9223372036854775808) % 18446744073709551616 - 9223372036854775808

/-- The ids handed out by `self.next_id.fetch_add(1, Ordering::SeqCst)`
(line 59 of `src/client.rs`) across a run of consecutive allocations
starting from counter value `c`. The atomic makes concurrent allocations
linearize to exactly such a sequence. -/
def allocIds (c : Int) : Nat → List Int
  | 0 => []
  | n + 1 => c :: allocIds (i64wrap (c + 1)) n

/-- The engine state a `request` call touches before awaiting: the
`next_id` atomic and the pending registry (the `McpClient` struct has no
further state besides the transport handle; in particular no
stopped/running flag). -/
structure EngineState where
  nextId : Int
  pending : PendingMap
deriving DecidableEq, Repr

/-- Outcome of the send phase of `McpClient::request`: either the
transport send failed and the call returns that error at once, or the
call proceeds to `rx.await` on the oneshot receiver for its id. -/
inductive SendPhase where
  | sendFailed (e : ClientError)
  | awaiting (id : Int) (tok : Nat)
deriving DecidableEq, Repr

/-- The send phase of `McpClient::request` (lines 59-82): allocate the id
with `fetch_add`, create the oneshot channel (`tok` names its sender),
insert the sender into the registry, then send. On `Err` from send, the
`?` operator returns the error immediately; the code performs no removal
of the just-inserted entry on that path. -/
def requestSend (st : EngineState) (tok : Nat) (sendRes : Except ClientError Unit) :
    EngineState × SendPhase :=
  let id := st.nextId
  let nid := i64wrap (st.nextId + 1)
  let p2 := mapInsert st.pending id tok
  match sendRes with
  | .error e => (⟨nid, p2⟩, .sendFailed e)
  | .ok _ => (⟨nid, p2⟩, .awaiting id tok)

/-- The tail of `McpClient::request` (lines 84-92) applied to a response
delivered to the awaiting caller: an `error` member fails the call with
the rpc error; otherwise the call succeeds with `result.unwrap_or(Value::Null)`. -/
def handleResponse (r : JsonRpcResponse) : Except ClientError Json :=
  match r.error with
  | some e => .error (.rpcError e.code e.message)
  | none => .ok (r.result.getD Json.null)

/-- The externally visible actions `McpClient::shutdown` performs, in
order; the code awaits all three unconditionally (no early return before
the close). -/
inductive ShutAction where
  | shutdownRequest
  | exitNote
  | transportClose
deriving DecidableEq, Repr

/-- Mirrors `McpClient::shutdown` (lines 135-160) as a function of the
three awaited outcomes: the `shutdown` request's result, the `exit`
notification send's result (bound to `_`, i.e. discarded), and
`transport.close()`'s result. Returns the actions performed and the
value `shutdown` returns: both failures merged when request and close
both fail, the single failure when exactly one fails, else the close
result. -/
def shutdownRun (reqRes : Except ClientError Json)
    (exitRes : Except ClientError Unit) (closeRes : Except ClientError Unit) :
    List ShutAction × Except ClientError Unit :=
  let _ := exitRes
  let res :=
    match reqRes with
    | .error err =>
      match closeRes with
      | .error closeErr => .error (.combined err closeErr)
      | .ok _ => .error err
    | .ok _ => closeRes
  ([.shutdownRequest, .exitNote, .transportClose], res)

theorem i64wrap_id (n : Int) (hlo : -9223372036854775808 ≤ n)
    (hhi : n ≤ 9223372036854775807) : i64wrap n = n := by
  unfold i64wrap
  rw [Int.emod_eq_of_lt (by omega) (by omega)]
  omega

theorem allocIds_eq_range (N : Nat) : ∀ c : Int, -9223372036854775808 ≤ c →
    c + N ≤ 9223372036854775808 →
    allocIds c N = (List.range N).map (fun k : Nat => c + (k : Int)) := by
  induction N with
  | zero => intro c _ _; rfl
  | succ n ih =>
    intro c hlo hhi
    rw [allocIds, List.range_succ_eq_map]
    cases n with
    | zero => simp [allocIds]
    | succ m =>
      have hhi2 : c + (m + 2 : Nat) ≤ 9223372036854775808 := hhi
      have hw : i64wrap (c + 1) = c + 1 := by
        apply i64wrap_id (c + 1) (by omega)
        push_cast at hhi2
        omega
      rw [hw, ih (c + 1) (by omega) (by push_cast at hhi2 ⊢; omega)]
      simp only [List.map_cons, List.map_map, Nat.cast_zero, add_zero, List.cons.injEq, true_and]
      apply List.map_congr_left
      intro k _
      simp only [Function.comp_apply]
      push_cast
      ring

/-- C1: the claim fails on the code. With two calls pending (ids 1 and 2)
and `transport.receive` returning `Err`, the dispatch loop exits leaving
the registry exactly as it was and resolving nothing: no pending entry
is dropped or resolved with Disconnected, so the callers (whose oneshot
senders remain alive inside the registry that the client still owns)
await forever. -/
theorem C1_recv_failure_leaves_pending_unresolved :
    runLoop [Except.error "MCP Server closed connection (EOF)"] [(1, 10), (2, 11)] =
      ([(1, 10), (2, 11)], [], LoopExit.recvError "MCP Server closed connection (EOF)") := rfl

/-- C2 counterexample: with an empty registry and next id 1, a call whose
transport send fails does return the transport error, but the registry
afterwards still holds the entry for id 1 — refuting that the engine
removes the just-inserted entry. -/
theorem C2_send_failure_keeps_entry_cx :
    (requestSend ⟨1, []⟩ 5 (Except.error (ClientError.transportError "broken pipe"))).2 =
        SendPhase.sendFailed (ClientError.transportError "broken pipe") ∧
      mapFind (requestSend ⟨1, []⟩ 5
          (Except.error (ClientError.transportError "broken pipe"))).1.pending 1 = some 5 :=
  ⟨rfl, rfl⟩

/-- C2 amended: for every call whose transport send fails after the
pending entry was inserted, the call fails with that transport error,
but the just-inserted entry is not removed: the registry still holds the
entry for the allocated id. -/
theorem C2_amended_send_failure_keeps_entry (st : EngineState) (tok : Nat) (e : ClientError) :
    (requestSend st tok (Except.error e)).2 = SendPhase.sendFailed e ∧
      mapFind (requestSend st tok (Except.error e)).1.pending st.nextId = some tok := by
  exact ⟨rfl, mapFind_insert_self st.pending st.nextId tok⟩

/-- C3: the claim fails on the code. After the dispatch loop has exited
(receive error), a subsequent call still allocates an id, inserts a
pending entry and proceeds to await its oneshot (which nothing will ever
resolve) instead of failing fast with Disconnected; the engine state has
no stopped flag for `request` to consult. -/
theorem C3_call_after_loop_exit_still_inserts :
    runLoop [Except.error "MCP Server closed connection (EOF)"] [] =
        ([], [], LoopExit.recvError "MCP Server closed connection (EOF)") ∧
      requestSend ⟨1, []⟩ 7 (Except.ok ()) = (⟨2, [(1, 7)]⟩, SendPhase.awaiting 1 7) :=
  ⟨rfl, rfl⟩

/-- C4: dispatch routing is remove-then-resolve and at-most-once.
(1) When a step resolves an entry, the matched id has already been
removed: the registry the step returns no longer contains it.
(2) A frame whose id matches no pending entry (including a duplicate of
an already-resolved id, or an id the step never had) leaves the registry
exactly unchanged, and the loop behaves as if the frame had not arrived —
in particular it does not terminate.
(3) Immediately after a step resolves an id, a second frame bearing the
same id is a no-op, so each pending entry is resolved at most once. -/
theorem C4_dispatch_remove_then_resolve :
    (∀ p r p2 ev, dispatchStep p r = (p2, some ev) →
      ∃ i, matchedId r = some i ∧ mapFind p i = some ev.1 ∧
        p2 = mapErase p i ∧ mapFind p2 i = none) ∧
    (∀ p r, (∀ i, matchedId r = some i → mapFind p i = none) →
      dispatchStep p r = (p, none) ∧
      ∀ rest, runLoop (Except.ok r :: rest) p = runLoop rest p) ∧
    (∀ p r p2 ev, dispatchStep p r = (p2, some ev) →
      dispatchStep p2 r = (p2, none)) := by
  have hres : ∀ p r p2 ev, dispatchStep p r = (p2, some ev) →
      ∃ i, matchedId r = some i ∧ mapFind p i = some ev.1 ∧
        p2 = mapErase p i ∧ mapFind p2 i = none := by
    intro p r p2 ev h
    cases hm : matchedId r with
    | none => simp [dispatchStep, hm] at h
    | some i =>
      cases hf : mapFind p i with
      | none => simp [dispatchStep, hm, mapRemove, hf] at h
      | some v =>
        simp [dispatchStep, hm, mapRemove, hf] at h
        obtain ⟨hp2, hev⟩ := h
        refine ⟨i, rfl, ?_, hp2.symm, ?_⟩
        · rw [hf, ← hev]
        · rw [← hp2]
          exact mapFind_erase_self p i
  have hnone : ∀ p r, (∀ i, matchedId r = some i → mapFind p i = none) →
      dispatchStep p r = (p, none) := by
    intro p r h
    cases hm : matchedId r with
    | none => simp [dispatchStep, hm]
    | some i => simp [dispatchStep, hm, mapRemove, h i hm]
  refine ⟨hres, ⟨?_, ?_⟩⟩
  · intro p r h
    refine ⟨hnone p r h, ?_⟩
    intro rest
    rw [runLoop, hnone p r h]
  · intro p r p2 ev h
    obtain ⟨i, hm, _, _, hfind⟩ := hres p r p2 ev h
    apply hnone
    intro j hj
    rw [hm] at hj
    injection hj with hj
    subst hj
    exact hfind

/-- Witness for C4: a frame whose id (99) has no entry in the registry
containing only id 1 changes nothing and is skipped by the loop. -/
theorem C4_witness :
    dispatchStep [(1, 5)] ⟨"2.0", some (Json.num (JNum.posInt 99)), some Json.null, none⟩ =
        ([(1, 5)], none) ∧
      runLoop [Except.ok ⟨"2.0", some (Json.num (JNum.posInt 99)), some Json.null, none⟩]
        [(1, 5)] = runLoop [] [(1, 5)] := by
  have h := C4_dispatch_remove_then_resolve.2.1 [(1, 5)]
    ⟨"2.0", some (Json.num (JNum.posInt 99)), some Json.null, none⟩ ?_
  · exact ⟨h.1, h.2 []⟩
  · intro i hi
    have h99 : matchedId ⟨"2.0", some (Json.num (JNum.posInt 99)), some Json.null, none⟩ =
        some 99 := rfl
    rw [h99] at hi
    injection hi with hi
    subst hi
    rfl

/-- C5: starting from counter value 1 (the `AtomicI64::new(1)` of the
constructor), a run of N allocations — concurrent `fetch_add` calls
linearize to exactly such a run — yields the ids 1, 2, ..., N: the first
id is 1, the ids are strictly increasing and pairwise distinct (so no id
is reused while pending), and there are N of them. N is bounded by the
signed 64-bit range the ids live in. -/
theorem C5_ids_start_at_one_strictly_increasing (N : Nat)
    (h : (N : Int) ≤ 9223372036854775807) :
    allocIds 1 N = (List.range N).map (fun k : Nat => 1 + (k : Int)) ∧
    (allocIds 1 N).Chain' (· < ·) ∧
    (allocIds 1 N).Nodup ∧
    (0 < N → (allocIds 1 N).head? = some 1) ∧
    (allocIds 1 N).length = N := by
  have heq := allocIds_eq_range N 1 (by omega) (by omega)
  refine ⟨heq, ?_, ?_, ?_, ?_⟩
  · rw [heq]
    have hp : ((List.range N).map (fun k : Nat => 1 + (k : Int))).Pairwise (· < ·) := by
      rw [List.pairwise_map]
      exact (List.pairwise_lt_range N).imp (by intro a b hab; omega)
    exact hp.chain'
  · rw [heq]
    refine List.Nodup.map ?_ (List.nodup_range N)
    intro a b hab
    dsimp only at hab
    omega
  · intro hN
    cases N with
    | zero => omega
    | succ n => rfl
  · rw [heq]
    simp

/-- Witness for C5: three allocations from the initial counter give
exactly the ids 1, 2, 3. -/
theorem C5_witness :
    allocIds 1 3 = (List.range 3).map (fun k : Nat => 1 + (k : Int)) ∧
    (allocIds 1 3).Chain' (· < ·) ∧
    (allocIds 1 3).Nodup ∧
    (0 < 3 → (allocIds 1 3).head? = some 1) ∧
    (allocIds 1 3).length = 3 :=
  C5_ids_start_at_one_strictly_increasing 3 (by decide)

/-- C6 counterexample: a response carrying neither a result nor an error
member makes the call succeed with JSON null — it does not fail at all,
so in particular it does not fail with a ProtocolError. -/
theorem C6_missing_both_yields_null_cx :
    handleResponse ⟨"2.0", some (Json.num (JNum.posInt 1)), none, none⟩ =
        Except.ok Json.null ∧
      ¬ ∃ e, handleResponse ⟨"2.0", some (Json.num (JNum.posInt 1)), none, none⟩ =
        Except.error e := by
  refine ⟨rfl, ?_⟩
  rintro ⟨e, he⟩
  simp [handleResponse] at he

/-- C6 amended: every response delivered to a waiting call that contains
neither a result nor an error member makes the call succeed with the
JSON value null — the code substitutes Null for the missing result and
has no ProtocolError failure at all. -/
theorem C6_amended_missing_both_yields_null (v : String) (i : Option Json) :
    handleResponse ⟨v, i, none, none⟩ = Except.ok Json.null := rfl

/-- C7 counterexample: a run of shutdown in which the shutdown request
and the transport close both succeed but the exit-notification send
fails returns plain success — that send failure neither surfaces to the
caller nor is an unmatched response id nor a failure of close(). -/
theorem C7_exit_send_failure_swallowed_cx :
    shutdownRun (Except.ok Json.null)
        (Except.error (ClientError.transportError "broken pipe")) (Except.ok ()) =
      ([ShutAction.shutdownRequest, ShutAction.exitNote, ShutAction.transportClose],
        Except.ok ()) := rfl

/-- C7 amended: during shutdown the exit-notification send result never
influences the returned value (it is discarded best-effort), while the
shutdown request failure and the transport close failure do surface,
merged into one combined error when both occur. -/
theorem C7_amended_error_propagation :
    (∀ req x1 x2 closer, (shutdownRun req x1 closer).2 = (shutdownRun req x2 closer).2) ∧
    (∀ e x, (shutdownRun (Except.error e) x (Except.ok ())).2 = Except.error e) ∧
    (∀ v ce x, (shutdownRun (Except.ok v) x (Except.error ce)).2 = Except.error ce) ∧
    (∀ e ce x, (shutdownRun (Except.error e) x (Except.error ce)).2 =
      Except.error (ClientError.combined e ce)) :=
  ⟨fun _ _ _ _ => rfl, fun _ _ => rfl, fun _ _ _ => rfl, fun _ _ _ => rfl⟩

/-- C8: shutdown performs the transport close unconditionally — also when
the shutdown request failed — and merges the two reportable failures: both
fail gives one combined error carrying both, exactly one fails gives that
one, neither fails gives success. -/
theorem C8_shutdown_always_closes_and_merges :
    (∀ req x closer, ShutAction.transportClose ∈ (shutdownRun req x closer).1) ∧
    (∀ e ce x, (shutdownRun (Except.error e) x (Except.error ce)).2 =
      Except.error (ClientError.combined e ce)) ∧
    (∀ e x, (shutdownRun (Except.error e) x (Except.ok ())).2 = Except.error e) ∧
    (∀ v ce x, (shutdownRun (Except.ok v) x (Except.error ce)).2 = Except.error ce) ∧
    (∀ v x, (shutdownRun (Except.ok v) x (Except.ok ())).2 = Except.ok ()) := by
  refine ⟨?_, fun _ _ _ => rfl, fun _ _ => rfl, fun _ _ _ => rfl, fun _ _ => rfl⟩
  intro req x closer
  simp [shutdownRun]

/-- The error-response frame of the spec's error example: id 2, error
code -32601, message "method not found". -/
def errFrame2 : JsonRpcResponse :=
  ⟨"2.0", some (Json.num (JNum.posInt 2)), none, some ⟨-32601, "method not found", none⟩⟩

/-- C9: delivering the -32601 error frame for pending id 2 removes the
entry for id 2 (the registry holds nothing for it afterwards), resolves
the waiting caller with that frame, and the caller's call fails with the
rpc error carrying code -32601 and the message. -/
theorem C9_rpc_error_resolution :
    dispatchStep [(2, 7)] errFrame2 = ([], some (7, errFrame2)) ∧
    mapFind (dispatchStep [(2, 7)] errFrame2).1 2 = none ∧
    handleResponse errFrame2 =
      Except.error (ClientError.rpcError (-32601) "method not found") :=
  ⟨rfl, rfl, rfl⟩

/-- C10: a decoded response whose id is absent, null, a string, or a
non-integer number is discarded: the registry is left exactly unchanged
and the loop proceeds with the rest of the trace as if the frame had not
arrived — string ids are legal on the wire but are never correlated. -/
theorem C10_non_i64_ids_discarded (p : PendingMap)
    (rest : List (Except String JsonRpcResponse)) (r : JsonRpcResponse)
    (h : r.id = none ∨ r.id = some Json.null ∨ (∃ s, r.id = some (Json.str s)) ∨
      r.id = some (Json.num JNum.float)) :
    dispatchStep p r = (p, none) ∧
    runLoop (Except.ok r :: rest) p = runLoop rest p := by
  have hm : matchedId r = none := by
    rcases h with h | h | ⟨s, h⟩ | h <;> simp [matchedId, h, Json.as_i64, JNum.as_i64]
  have hstep : dispatchStep p r = (p, none) := by simp [dispatchStep, hm]
  exact ⟨hstep, by rw [runLoop, hstep]⟩

/-- Witness for C10: a frame with the string id "abc" leaves a registry
holding id 1 unchanged and is skipped by the loop. -/
theorem C10_witness :
    dispatchStep [(1, 5)] ⟨"2.0", some (Json.str "abc"), some Json.null, none⟩ =
        ([(1, 5)], none) ∧
      runLoop [Except.ok ⟨"2.0", some (Json.str "abc"), some Json.null, none⟩] [(1, 5)] =
        runLoop [] [(1, 5)] :=
  C10_non_i64_ids_discarded [(1, 5)] [] ⟨"2.0", some (Json.str "abc"), some Json.null, none⟩
    (Or.inr (Or.inr (Or.inl ⟨"abc", rfl⟩)))

end Mcp
